import Mathlib

/-!
Verification of the water-safety serial pipeline (`backend/serial_reader.py`).

The development shallowly embeds the pure core of the pipeline:
the line parser `parse_sensor_line`, the reader thread's batching loop
(`arduino_reader_thread`), the relay/buzzer controller `control_hardware`,
the LCD writer `send_to_arduino`, and the error-handling skeleton of
`prediction_thread`.  Python floats are modelled by `PyFloat` (an exact
rational together with the special values `inf`, `-inf`, `nan`); the
built-in `float(str)` conversion is modelled by `PyFloat.ofString`,
following CPython's accepted grammar (optional surrounding whitespace,
optional sign, `inf`/`infinity`/`nan` case-insensitively, or a decimal
literal with optional fraction, exponent and digit-grouping underscores).
Serial writes are modelled as the list of line payloads written, in order.
Timestamps are abstracted to natural numbers supplied with each input line.
-/

namespace WaterSafety

/-- Model of a CPython `float` value: an exact rational (the value
semantics is exact arithmetic rather than binary64 rounding), or one of
the special values `inf`, `-inf`, `nan`. -/
inductive PyFloat where
  | finite (q : ℚ)
  | inf
  | ninf
  | nan
deriving DecidableEq, Repr, Inhabited

/-- Python's `<=` on floats: any comparison involving `nan` is false;
`-inf` is below everything else and `inf` above everything else. -/
def PyFloat.le : PyFloat → PyFloat → Bool
  | .nan, _ => false
  | _, .nan => false
  | .ninf, _ => true
  | _, .ninf => false
  | _, .inf => true
  | .inf, _ => false
  | .finite a, .finite b => decide (a ≤ b)

/-- Split a character list at the first character satisfying `p`:
returns the part before it and, when found, the part after it. -/
def splitFirst (p : Char → Bool) : List Char → List Char × Option (List Char)
  | [] => ([], none)
  | c :: t =>
    if p c then ([], some t)
    else
      let r := splitFirst p t
      (c :: r.1, r.2)

/-- Helper for `pySplit`: `acc` holds the reversed current field. -/
def pySplitAux (sep : Char) : List Char → List Char → List (List Char)
  | [], acc => [acc.reverse]
  | c :: t, acc =>
    if c = sep then acc.reverse :: pySplitAux sep t []
    else pySplitAux sep t (c :: acc)

/-- Python's `str.split(sep)` with a one-character separator: splitting
the empty string yields `[""]`, and adjacent separators yield empty
fields. -/
def pySplit (sep : Char) (l : List Char) : List (List Char) :=
  pySplitAux sep l []

/-- Validity of the tail of a digit group after an initial digit:
digits, with each grouping underscore standing between two digits. -/
def digitGroupTail : List Char → Bool
  | [] => true
  | '_' :: c :: t => c.isDigit && digitGroupTail t
  | ['_'] => false
  | c :: t => c.isDigit && digitGroupTail t

/-- A valid CPython digit group: nonempty, starts with a digit, and any
underscore stands between two digits. -/
def validDigitGroup : List Char → Bool
  | [] => false
  | c :: t => c.isDigit && digitGroupTail t

/-- Numeric value of a digit group, skipping grouping underscores. -/
def digitsVal (l : List Char) : ℕ :=
  l.foldl (fun a c => if c.isDigit then 10 * a + (c.toNat - 48) else a) 0

/-- Number of digits in a digit group (underscores do not count). -/
def digitCount (l : List Char) : ℕ := (l.filter Char.isDigit).length

/-- Value of an unsigned decimal literal `ip . fp e (±e)`;
`epos = true` means a nonnegative exponent. -/
def decimalVal (ip fp : List Char) (epos : Bool) (e : ℕ) : ℚ :=
  let m : ℕ := digitsVal ip * 10 ^ digitCount fp + digitsVal fp
  if epos then Rat.divInt (m * 10 ^ e) (10 ^ digitCount fp)
  else Rat.divInt m (10 ^ (digitCount fp + e))

/-- Parse the unsigned part of a float literal (already lowercased):
`inf`, `infinity`, `nan`, or a decimal literal with optional fraction
and exponent. -/
def PyFloat.ofUnsigned (l : List Char) : Option PyFloat :=
  if l = "inf".toList ∨ l = "infinity".toList then some .inf
  else if l = "nan".toList then some .nan
  else
    let me := splitFirst (fun c => c = 'e') l
    let ifp := splitFirst (fun c => c = '.') me.1
    let ip := ifp.1
    let fp := (ifp.2).getD []
    let ipOk := ip.isEmpty || validDigitGroup ip
    let fpOk := match ifp.2 with
      | none => true
      | some f => f.isEmpty || validDigitGroup f
    let hasDigit := decide (0 < digitCount ip + digitCount fp)
    let expVal : Option (Bool × ℕ) := match me.2 with
      | none => some (true, 0)
      | some ('+' :: e) => if validDigitGroup e then some (true, digitsVal e) else none
      | some ('-' :: e) => if validDigitGroup e then some (false, digitsVal e) else none
      | some e => if validDigitGroup e then some (true, digitsVal e) else none
    match expVal with
    | none => none
    | some (epos, e) =>
      if ipOk && fpOk && hasDigit then some (.finite (decimalVal ip fp epos e))
      else none

/-- Negation on the model (`nan` is sign-less). -/
def PyFloat.neg : PyFloat → PyFloat
  | .finite q => .finite (-q)
  | .inf => .ninf
  | .ninf => .inf
  | .nan => .nan

/-- Model of the CPython built-in `float(str)` on a character list:
strip surrounding whitespace, lowercase, take an optional sign, then
parse the unsigned literal.  `none` models a raised `ValueError`. -/
def PyFloat.ofChars (s : List Char) : Option PyFloat :=
  let core := ((s.dropWhile Char.isWhitespace).reverse.dropWhile
      Char.isWhitespace).reverse.map Char.toLower
  match core with
  | '+' :: t => PyFloat.ofUnsigned t
  | '-' :: t => (PyFloat.ofUnsigned t).map PyFloat.neg
  | t => PyFloat.ofUnsigned t

/-- The model of `float(str)` on a Lean string. -/
def PyFloat.ofString (s : String) : Option PyFloat := PyFloat.ofChars s.toList

/-- A validated sensor reading (`parse_sensor_line`'s result dict). -/
structure Reading where
  turbidity : PyFloat
  tds : PyFloat
  ph : PyFloat
  temperature : PyFloat
deriving DecidableEq, Repr, Inhabited

/-- Python chained comparison `lo <= v <= hi` with integer literal bounds. -/
def inRange (lo hi : ℚ) (v : PyFloat) : Bool :=
  PyFloat.le (.finite lo) v && PyFloat.le v (.finite hi)

/-- Exceptions the body of `parse_sensor_line` can raise. -/
inductive PyErr where
  | valueError
  | indexError
  | otherError
deriving DecidableEq, Repr

/-- The `try:` body of `parse_sensor_line`: split on commas, reject on a
field count other than 4, convert each field with `float` (a failed
conversion raises `ValueError`), then check each range, rejecting (with
`None`) when any check fails. -/
def parseBody (line : String) : Except PyErr (Option Reading) :=
  let values := pySplit ',' line.toList
  if values.length ≠ 4 then .ok none
  else
    match PyFloat.ofChars (values.getD 0 []) with
    | none => .error .valueError
    | some turbidity =>
      match PyFloat.ofChars (values.getD 1 []) with
      | none => .error .valueError
      | some tds =>
        match PyFloat.ofChars (values.getD 2 []) with
        | none => .error .valueError
        | some ph =>
          match PyFloat.ofChars (values.getD 3 []) with
          | none => .error .valueError
          | some temp =>
            if !inRange 0 100 turbidity then .ok none
            else if !inRange 0 2000 tds then .ok none
            else if !inRange 0 14 ph then .ok none
            else if !inRange (-10) 100 temp then .ok none
            else .ok (some ⟨turbidity, tds, ph, temp⟩)

/-- Model of `parse_sensor_line`: the body wrapped in the `except` handlers, which
catch `ValueError`, `IndexError` and every other `Exception`, all of them
returning `None`. -/
def parse_sensor_line (line : String) : Option Reading :=
  match parseBody line with
  | .ok r => r
  | .error _ => none

example : parse_sensor_line "1.0,150,7.0,22.0" =
    some ⟨.finite 1, .finite 150, .finite 7, .finite 22⟩ := by decide
example : parse_sensor_line "abc,150,7.0,22.0" = none := by decide
example : parse_sensor_line "200,150,7.0,22.0" = none := by decide
example : parse_sensor_line "1.0,150,7.0" = none := by decide
example : parse_sensor_line "nan,150,7.0,22.0" = none := by decide
example : parse_sensor_line " -1.5e1 ,150,7.0,22.0" = none := by decide
example : parse_sensor_line "1_0.5,150,7.0,22.0" =
    some ⟨.finite (Rat.divInt 21 2), .finite 150, .finite 7, .finite 22⟩ := by
  decide

/-! ## Hardware control (`control_hardware`, `send_to_arduino`) -/

/-- The serial handle as seen by the control functions: only its
`is_open` flag matters to them.  An absent handle is `none` at use
sites. -/
structure Arduino where
  is_open : Bool
deriving DecidableEq, Repr

/-- One entry of the `disease_risks` list of a decoded prediction
response.  The display path uses `name`; the remaining fields are only
printed to the console. -/
structure Disease where
  name : String
  risk_percent : String
  level : String
  status : String
deriving DecidableEq, Repr

/-- The `prediction` object of a decoded response.  `confidence` is kept
as its rendered text, since the code only ever interpolates it into a
format string. -/
structure Prediction where
  quality : String
  confidence : String
deriving DecidableEq, Repr

/-- A decoded prediction-endpoint response.  `prediction = none` models a
JSON object without a `"prediction"` key, and `disease_risks = none` one
without a `"disease_risks"` key (so `result.get('disease_risks')` yields
`None`).  Console-only fields (`health_risks`) are not modelled. -/
structure PredResult where
  prediction : Option Prediction
  disease_risks : Option (List Disease)
deriving DecidableEq, Repr

/-- Risk levels derived from the quality label. -/
inductive Risk where
  | low
  | medium
  | high
deriving DecidableEq, Repr

/-- Python `str.upper()` (ASCII case mapping). -/
def pyUpper (s : String) : String := String.mk (s.toList.map Char.toUpper)

/-- Python's substring test `needle in hay`. -/
def pyIn (needle hay : String) : Bool := decide (needle.toList <:+: hay.toList)

/-- The risk classification inside `control_hardware`: `high` when the
uppercased quality label contains `"HIGH RISK"`, else `medium` when it
contains `"MEDIUM RISK"`, else `low`. -/
def risk_level (quality : String) : Risk :=
  if pyIn "HIGH RISK" (pyUpper quality) then .high
  else if pyIn "MEDIUM RISK" (pyUpper quality) then .medium
  else .low

/-- The exact payload of the relay-engage write. -/
def relayCmd : String := "RELAY:ON\n"

/-- The exact payload of the alert-sound write. -/
def buzzerCmd : String := "BUZZER:ON\n"

/-- Model of `control_hardware(arduino, result)` with the global
`relay_permanently_off` made explicit: returns the list of serial
payloads written, in order, together with the updated flag.  Missing or
closed handle, `None`/falsy result, or a result without a `prediction`
key all return without writing. -/
def control_hardware (ard : Option Arduino) (result : Option PredResult)
    (relay_permanently_off : Bool) : List String × Bool :=
  match ard with
  | none => ([], relay_permanently_off)
  | some a =>
    if !a.is_open then ([], relay_permanently_off)
    else
      match result with
      | none => ([], relay_permanently_off)
      | some r =>
        match r.prediction with
        | none => ([], relay_permanently_off)
        | some p =>
          let risk := risk_level p.quality
          let relayWrites :=
            if risk = .high && !relay_permanently_off then [relayCmd] else []
          let relayAfter :=
            if risk = .high && !relay_permanently_off then true
            else relay_permanently_off
          let buzzerWrites :=
            if risk = .medium ∨ risk = .high then [buzzerCmd] else []
          (relayWrites ++ buzzerWrites, relayAfter)

/-- Python slicing `s[:n]`. -/
def pyTruncate (n : ℕ) (s : String) : String := String.mk (s.toList.take n)

/-- Model of `send_to_arduino(arduino, result)`: the list of serial payloads
written for the LCD, in order.  A missing/closed handle or a result
without a `prediction` key writes nothing. -/
def send_to_arduino (ard : Option Arduino) (result : Option PredResult) :
    List String :=
  match ard with
  | none => []
  | some a =>
    if !a.is_open then []
    else
      match result with
      | none => []
      | some r =>
        match r.prediction with
        | none => []
        | some p =>
          let quality_text := pyTruncate 12 p.quality ++ " " ++ p.confidence ++ "%"
          let riskWrite := "RISK:" ++ quality_text ++ "\n"
          let issueWrite :=
            match r.disease_risks with
            | some (top_disease :: _) =>
              "ISSUE:" ++ pyTruncate 16 top_disease.name ++ "\n"
            | _ => "ISSUE:Safe to use\n"
          [riskWrite, issueWrite]

/-- A whole-lifetime run of `control_hardware` over a sequence of
prediction results, threading `relay_permanently_off` and collecting
every serial payload written, in order. -/
def controlRun (ard : Option Arduino) : List (Option PredResult) → Bool →
    List String × Bool
  | [], b => ([], b)
  | r :: rs, b =>
    let step := control_hardware ard r b
    let rest := controlRun ard rs step.2
    (step.1 ++ rest.1, rest.2)

/-! ## Prediction thread (`prediction_thread`) -/

/-- Outcome of one `requests.post` to the prediction endpoint, as seen by
`prediction_thread`: a timeout, another transport error, or a response
with a status code and (when the payload decodes) a decoded body.
`body = none` models a payload `response.json()` cannot decode. -/
inductive NetOutcome where
  | timeout
  | netError
  | response (status : ℕ) (body : Option PredResult)
deriving DecidableEq, Repr

/-- A prediction attempt that `prediction_thread` skips: a timeout, a
transport error, a non-200 status, an undecodable payload, or a decoded
payload without a `prediction` key (whose field access raises before any
hardware call, and is caught by the same handler). -/
def isFailure : NetOutcome → Bool
  | .timeout => true
  | .netError => true
  | .response status body =>
    decide (status ≠ 200) ||
      match body with
      | none => true
      | some r => r.prediction.isNone

/-- One iteration of `prediction_thread` on a dequeued batch, given the
network outcome of its prediction request: the serial payloads written
and the updated `relay_permanently_off` flag.  On HTTP 200 with a
decodable body carrying a `prediction` key, it runs `control_hardware`
then `send_to_arduino`; every other outcome is caught/skipped with no
write and no state change. -/
def predictionStep (ard : Option Arduino) (relay_permanently_off : Bool)
    (o : NetOutcome) : List String × Bool :=
  match o with
  | .timeout => ([], relay_permanently_off)
  | .netError => ([], relay_permanently_off)
  | .response status body =>
    if status = 200 then
      match body with
      | none => ([], relay_permanently_off)
      | some result =>
        match result.prediction with
        | none => ([], relay_permanently_off)
        | some _ =>
          let ctl := control_hardware ard (some result) relay_permanently_off
          (ctl.1 ++ send_to_arduino ard (some result), ctl.2)
    else ([], relay_permanently_off)

/-- A run of `prediction_thread` over the successive network outcomes of
the dequeued batches, threading the relay flag and collecting writes. -/
def predictionRun (ard : Option Arduino) : Bool → List NetOutcome →
    List String × Bool
  | b, [] => ([], b)
  | b, o :: os =>
    let step := predictionStep ard b o
    let rest := predictionRun ard step.2 os
    (step.1 ++ rest.1, rest.2)

/-! ## Reader thread (`arduino_reader_thread`) -/

/-- The batch size `READINGS_BUFFER` from the configuration block. -/
def READINGS_BUFFER : ℕ := 5

/-- A reading with the timestamp stamped on it by the reader thread
(`sensor_data_with_time`).  Timestamps are abstracted to naturals. -/
structure TimedReading where
  reading : Reading
  time : ℕ
deriving DecidableEq, Repr, Inhabited

/-- An item placed on `prediction_queue`: the latest reading of a full
buffer together with the running `reading_count` and the current
timestamp. -/
structure BatchItem where
  data : TimedReading
  count : ℕ
  time : ℕ
deriving DecidableEq, Repr, Inhabited

/-- The observable state of the reader loop: the running counter, the
pending `sensor_buffer`, and the two queues (modelled as the lists of
items enqueued so far, in order). -/
structure ReaderState where
  reading_count : ℕ
  sensor_buffer : List TimedReading
  instant_queue : List TimedReading
  prediction_queue : List BatchItem
deriving DecidableEq, Repr

/-- The initial reader state. -/
def readerInit : ReaderState := ⟨0, [], [], []⟩

/-- One iteration of the reader loop on an available line `line` read at
timestamp `t`: skip empty lines, parse, and on acceptance stamp the
time, enqueue on the instant queue, append to the buffer, and when the
buffer has reached `READINGS_BUFFER` entries enqueue a `BatchItem` built
from its last element and clear the buffer. -/
def readerStep (st : ReaderState) (line : String) (t : ℕ) : ReaderState :=
  if line = "" then st
  else
    match parse_sensor_line line with
    | none => st
    | some sensor_data =>
      let reading_count := st.reading_count + 1
      let sensor_data_with_time : TimedReading := ⟨sensor_data, t⟩
      let instant_queue := st.instant_queue ++ [sensor_data_with_time]
      let sensor_buffer := st.sensor_buffer ++ [sensor_data_with_time]
      if READINGS_BUFFER ≤ sensor_buffer.length then
        { reading_count
          sensor_buffer := []
          instant_queue
          prediction_queue := st.prediction_queue ++
            [{ data := (sensor_buffer.getLast?).getD sensor_data_with_time
               count := reading_count
               time := t }] }
      else
        { reading_count, sensor_buffer, instant_queue
          prediction_queue := st.prediction_queue }

/-- The reader loop over a sequence of available lines with their
timestamps. -/
def readerRun (ls : List (String × ℕ)) : ReaderState :=
  ls.foldl (fun st lt => readerStep st lt.1 lt.2) readerInit

/-- The accepted (non-empty, successfully parsed) readings of a line
sequence, stamped with their timestamps, in arrival order. -/
def acceptedReadings (ls : List (String × ℕ)) : List TimedReading :=
  ls.filterMap fun lt =>
    if lt.1 = "" then none
    else (parse_sensor_line lt.1).map fun r => ⟨r, lt.2⟩

/-- The spec's description of the batch queue contents: one `BatchItem`
per group of `N = 5` accepted readings, holding the group's last (5th)
reading, the running reading count at that point, and that reading's
timestamp. -/
def batchQueueSpec (a : List TimedReading) : List BatchItem :=
  (List.range (a.length / READINGS_BUFFER)).map fun i =>
    { data := a.getD (READINGS_BUFFER * i + (READINGS_BUFFER - 1)) default
      count := READINGS_BUFFER * (i + 1)
      time := (a.getD (READINGS_BUFFER * i + (READINGS_BUFFER - 1)) default).time }

/-! ## Theorems: the line parser -/

/-- The range check the parser applies to field `i` (fields beyond the
four carry no check). -/
def fieldRangeOk : ℕ → PyFloat → Bool
  | 0, v => inRange 0 100 v
  | 1, v => inRange 0 2000 v
  | 2, v => inRange 0 14 v
  | 3, v => inRange (-10) 100 v
  | _, _ => true

/-- C9: the parser is total: every run of the `try:` body either returns
normally — and `parse_sensor_line` returns exactly that value — or
raises, and the `except` handlers catch every exception and return
`None`; no exception reaches the caller for any input string. -/
theorem parse_sensor_line_total (line : String) :
    (∃ r, parseBody line = .ok r ∧ parse_sensor_line line = r) ∨
    (∃ e, parseBody line = .error e ∧ parse_sensor_line line = none) := by
  cases h : parseBody line with
  | ok r => exact .inl ⟨r, rfl, by simp [parse_sensor_line, h]⟩
  | error e => exact .inr ⟨e, rfl, by simp [parse_sensor_line, h]⟩

/-- Helper: a `some` result of `parse_sensor_line` comes from a normal
return of the body. -/
lemma parseBody_ok_of_parse_some {line : String} {r : Reading}
    (h : parse_sensor_line line = some r) : parseBody line = .ok (some r) := by
  unfold parse_sensor_line at h
  cases hb : parseBody line <;> rw [hb] at h <;> simp_all

/-- C7: an accepted line splits into exactly four fields and the four
numeric components of the returned Reading are exactly the values
`float` produced from the corresponding fields — the parser applies no
further transformation. -/
theorem parse_fields_exact (line : String) (r : Reading)
    (h : parse_sensor_line line = some r) :
    ∃ s0 s1 s2 s3, pySplit ',' line.toList = [s0, s1, s2, s3] ∧
      PyFloat.ofChars s0 = some r.turbidity ∧
      PyFloat.ofChars s1 = some r.tds ∧
      PyFloat.ofChars s2 = some r.ph ∧
      PyFloat.ofChars s3 = some r.temperature := by
  have hb := parseBody_ok_of_parse_some h
  unfold parseBody at hb
  rcases hv : pySplit ',' line.toList with _ | ⟨s0, _ | ⟨s1, _ | ⟨s2, _ | ⟨s3, tl⟩⟩⟩⟩ <;>
    rw [hv] at hb <;> simp at hb
  rcases tl with _ | ⟨s4, tl⟩
  · obtain ⟨v0, h0⟩ : ∃ v, PyFloat.ofChars s0 = some v := by
      cases h0 : PyFloat.ofChars s0
      · rw [h0] at hb; simp at hb
      · exact ⟨_, rfl⟩
    rw [h0] at hb
    obtain ⟨v1, h1⟩ : ∃ v, PyFloat.ofChars s1 = some v := by
      cases h1 : PyFloat.ofChars s1
      · rw [h1] at hb; simp at hb
      · exact ⟨_, rfl⟩
    rw [h1] at hb
    obtain ⟨v2, h2⟩ : ∃ v, PyFloat.ofChars s2 = some v := by
      cases h2 : PyFloat.ofChars s2
      · rw [h2] at hb; simp at hb
      · exact ⟨_, rfl⟩
    rw [h2] at hb
    obtain ⟨v3, h3⟩ : ∃ v, PyFloat.ofChars s3 = some v := by
      cases h3 : PyFloat.ofChars s3
      · rw [h3] at hb; simp at hb
      · exact ⟨_, rfl⟩
    rw [h3] at hb
    cases hc0 : inRange 0 100 v0 <;> simp [hc0] at hb
    cases hc1 : inRange 0 2000 v1 <;> simp [hc1] at hb
    cases hc2 : inRange 0 14 v2 <;> simp [hc2] at hb
    cases hc3 : inRange (-10) 100 v3 <;> simp [hc3] at hb
    exact ⟨s0, s1, s2, s3, rfl, by simp [h0, ← hb], by simp [h1, ← hb],
      by simp [h2, ← hb], by simp [h3, ← hb]⟩
  · simp at hb

/-- C7 witness at a concrete accepted line. -/
theorem parse_fields_exact_witness :
    ∃ s0 s1 s2 s3, pySplit ',' ("1.0,150,7.0,22.0" : String).toList = [s0, s1, s2, s3] ∧
      PyFloat.ofChars s0 = some (PyFloat.finite 1) ∧
      PyFloat.ofChars s1 = some (PyFloat.finite 150) ∧
      PyFloat.ofChars s2 = some (PyFloat.finite 7) ∧
      PyFloat.ofChars s3 = some (PyFloat.finite 22) :=
  parse_fields_exact "1.0,150,7.0,22.0"
    ⟨.finite 1, .finite 150, .finite 7, .finite 22⟩ (by decide)

/-- C3: the parser rejects a line (returns `None`) exactly when the line
does not split into 4 comma-separated fields, or some field does not
convert as a float, or some converted value fails its range check; and a
rejected line leaves the reader state untouched (no observable side
effect). -/
theorem parse_rejects_iff (line : String) :
    (parse_sensor_line line = none ↔
      ((pySplit ',' line.toList).length ≠ 4 ∨
        (∃ s ∈ pySplit ',' line.toList, PyFloat.ofChars s = none) ∨
        (∃ i v, i < 4 ∧
          PyFloat.ofChars ((pySplit ',' line.toList).getD i []) = some v ∧
          fieldRangeOk i v = false))) ∧
    (∀ st t, parse_sensor_line line = none → readerStep st line t = st) := by
  constructor
  · by_cases hlen : (pySplit ',' line.toList).length = 4
    · rcases hv : pySplit ',' line.toList with _ | ⟨s0, _ | ⟨s1, _ | ⟨s2, _ | ⟨s3, _ | ⟨s4, tl⟩⟩⟩⟩⟩ <;>
        rw [hv] at hlen <;> simp at hlen
      have hv' : pySplit ',' line.data = [s0, s1, s2, s3] := hv
      cases h0 : PyFloat.ofChars s0
      · have hp : parse_sensor_line line = none := by
          simp [parse_sensor_line, parseBody, hv', h0]
        rw [hp]
        exact iff_of_true rfl (.inr (.inl ⟨s0, by simp, h0⟩))
      rename_i v0
      cases h1 : PyFloat.ofChars s1
      · have hp : parse_sensor_line line = none := by
          simp [parse_sensor_line, parseBody, hv', h0, h1]
        rw [hp]
        exact iff_of_true rfl (.inr (.inl ⟨s1, by simp, h1⟩))
      rename_i v1
      cases h2 : PyFloat.ofChars s2
      · have hp : parse_sensor_line line = none := by
          simp [parse_sensor_line, parseBody, hv', h0, h1, h2]
        rw [hp]
        exact iff_of_true rfl (.inr (.inl ⟨s2, by simp, h2⟩))
      rename_i v2
      cases h3 : PyFloat.ofChars s3
      · have hp : parse_sensor_line line = none := by
          simp [parse_sensor_line, parseBody, hv', h0, h1, h2, h3]
        rw [hp]
        exact iff_of_true rfl (.inr (.inl ⟨s3, by simp, h3⟩))
      rename_i v3
      cases hc0 : inRange 0 100 v0
      · have hp : parse_sensor_line line = none := by
          simp [parse_sensor_line, parseBody, hv', h0, h1, h2, h3, hc0]
        rw [hp]
        exact iff_of_true rfl
          (.inr (.inr ⟨0, v0, by omega, by simpa using h0, by simp [fieldRangeOk, hc0]⟩))
      cases hc1 : inRange 0 2000 v1
      · have hp : parse_sensor_line line = none := by
          simp [parse_sensor_line, parseBody, hv', h0, h1, h2, h3, hc0, hc1]
        rw [hp]
        exact iff_of_true rfl
          (.inr (.inr ⟨1, v1, by omega, by simpa using h1, by simp [fieldRangeOk, hc1]⟩))
      cases hc2 : inRange 0 14 v2
      · have hp : parse_sensor_line line = none := by
          simp [parse_sensor_line, parseBody, hv', h0, h1, h2, h3, hc0, hc1, hc2]
        rw [hp]
        exact iff_of_true rfl
          (.inr (.inr ⟨2, v2, by omega, by simpa using h2, by simp [fieldRangeOk, hc2]⟩))
      cases hc3 : inRange (-10) 100 v3
      · have hp : parse_sensor_line line = none := by
          simp [parse_sensor_line, parseBody, hv', h0, h1, h2, h3, hc0, hc1, hc2, hc3]
        rw [hp]
        exact iff_of_true rfl
          (.inr (.inr ⟨3, v3, by omega, by simpa using h3, by simp [fieldRangeOk, hc3]⟩))
      · have hp : parse_sensor_line line = some ⟨v0, v1, v2, v3⟩ := by
          simp [parse_sensor_line, parseBody, hv', h0, h1, h2, h3, hc0, hc1, hc2, hc3]
        rw [hp]
        refine iff_of_false (by simp) ?_
        push_neg
        refine ⟨by simp, ?_, ?_⟩
        · intro s hs
          simp only [List.mem_cons, List.not_mem_nil, or_false] at hs
          rcases hs with rfl | rfl | rfl | rfl <;> simp [h0, h1, h2, h3]
        · intro i v hi hgv
          interval_cases i <;> simp at hgv
          · rw [h0] at hgv; obtain rfl : v0 = v := Option.some.inj hgv; simp [fieldRangeOk, hc0]
          · rw [h1] at hgv; obtain rfl : v1 = v := Option.some.inj hgv; simp [fieldRangeOk, hc1]
          · rw [h2] at hgv; obtain rfl : v2 = v := Option.some.inj hgv; simp [fieldRangeOk, hc2]
          · rw [h3] at hgv; obtain rfl : v3 = v := Option.some.inj hgv; simp [fieldRangeOk, hc3]
    · have hlen' : ¬ (pySplit ',' line.data).length = 4 := hlen
      have hp : parse_sensor_line line = none := by
        simp [parse_sensor_line, parseBody, hlen']
      rw [hp]
      exact iff_of_true rfl (.inl hlen)
  · intro st t hnone
    unfold readerStep
    by_cases he : line = ""
    · simp [he]
    · simp [he, hnone]

/-- C3 witness at concrete rejected lines (wrong field count, non-numeric
field, out-of-range field), checking both the characterization and the
absence of a state change. -/
theorem parse_rejects_iff_witness :
    parse_sensor_line "200,150,7.0,22.0" = none ∧
    readerStep readerInit "200,150,7.0,22.0" 0 = readerInit := by
  have h := parse_rejects_iff "200,150,7.0,22.0"
  have hrej : parse_sensor_line "200,150,7.0,22.0" = none :=
    h.1.mpr (.inr (.inr ⟨0, .finite 200, by omega, by decide, by decide⟩))
  exact ⟨hrej, h.2 readerInit 0 hrej⟩

/-! ## Theorems: classification and hardware control -/

/-- Case-insensitive substring containment, stated as in the spec: some
contiguous substring of `hay` equals `needle` up to ASCII case. -/
def specContainsCI (needle hay : String) : Prop :=
  ∃ m : List Char, m <:+: hay.toList ∧
    m.map Char.toUpper = needle.toList.map Char.toUpper

/-- Bridge: the code's `needle in hay.upper()` equals case-insensitive
containment, for a needle that is already uppercase. -/
lemma pyIn_upper_iff (needle hay : String)
    (hneedle : needle.toList.map Char.toUpper = needle.toList) :
    pyIn needle (pyUpper hay) = true ↔ specContainsCI needle hay := by
  unfold pyIn pyUpper specContainsCI
  rw [decide_eq_true_eq]
  have hto : (String.mk (hay.toList.map Char.toUpper)).toList =
      hay.toList.map Char.toUpper := rfl
  rw [hto, hneedle]
  constructor
  · rintro ⟨s, t, heq⟩
    have h1 : hay.toList.map Char.toUpper = s ++ (needle.toList ++ t) := by
      rw [← heq]; simp
    rw [List.map_eq_append_iff] at h1
    obtain ⟨l1, l2, hsplit, -, h3⟩ := h1
    rw [List.map_eq_append_iff] at h3
    obtain ⟨m, l4, hsplit2, hm, -⟩ := h3
    refine ⟨m, ?_, hm⟩
    rw [hsplit, hsplit2]
    exact ⟨l1, l4, by simp⟩
  · rintro ⟨m, ⟨s, t, hst⟩, hm⟩
    rw [← hst]
    exact ⟨s.map Char.toUpper, t.map Char.toUpper, by simp [hm]⟩

/-- C5: the classification is `high` exactly when the quality label
contains `"HIGH RISK"` case-insensitively; otherwise `medium` exactly
when it contains `"MEDIUM RISK"` case-insensitively; otherwise `low`. -/
theorem risk_level_spec (q : String) :
    (risk_level q = .high ↔ specContainsCI "HIGH RISK" q) ∧
    (risk_level q = .medium ↔
      ¬ specContainsCI "HIGH RISK" q ∧ specContainsCI "MEDIUM RISK" q) ∧
    (risk_level q = .low ↔
      ¬ specContainsCI "HIGH RISK" q ∧ ¬ specContainsCI "MEDIUM RISK" q) := by
  have hH := pyIn_upper_iff "HIGH RISK" q (by decide)
  have hM := pyIn_upper_iff "MEDIUM RISK" q (by decide)
  unfold risk_level
  by_cases h1 : pyIn "HIGH RISK" (pyUpper q) = true
  · rw [← hH]
    simp [h1]
  · have h1' : ¬ specContainsCI "HIGH RISK" q := fun hc => h1 (hH.mpr hc)
    by_cases h2 : pyIn "MEDIUM RISK" (pyUpper q) = true
    · rw [if_neg h1, if_pos h2]
      refine ⟨iff_of_false (by simp) (fun hc => h1 (hH.mpr hc)), ?_, ?_⟩
      · exact iff_of_true rfl ⟨h1', hM.mp h2⟩
      · exact iff_of_false (by simp) (fun hc => hc.2 (hM.mp h2))
    · have h2' : ¬ specContainsCI "MEDIUM RISK" q := fun hc => h2 (hM.mpr hc)
      rw [if_neg h1, if_neg h2]
      refine ⟨iff_of_false (by simp) h1', iff_of_false (by simp) (fun hc => h2' hc.2), ?_⟩
      exact iff_of_true rfl ⟨h1', h2'⟩

/-- C4: given an open handle and a result carrying a prediction, the
alert command `BUZZER:ON` is written exactly when the classification is
`medium` or `high` — independently of the current latch state `b` — and
hence never on `low`. -/
theorem buzzer_on_medium_high (a : Arduino) (r : PredResult) (p : Prediction)
    (b : Bool) (hopen : a.is_open = true) (hp : r.prediction = some p) :
    buzzerCmd ∈ (control_hardware (some a) (some r) b).1 ↔
      risk_level p.quality = .medium ∨ risk_level p.quality = .high := by
  cases b <;> cases hr : risk_level p.quality <;>
    simp [control_hardware, hopen, hp, hr, relayCmd, buzzerCmd]

/-- C4 witness: a high-risk label on an open handle with the relay
already latched still sounds the buzzer; a low-risk one does not. -/
theorem buzzer_on_medium_high_witness :
    buzzerCmd ∈ (control_hardware (some ⟨true⟩)
      (some ⟨some ⟨"HIGH RISK", "90"⟩, none⟩) true).1 ∧
    buzzerCmd ∉ (control_hardware (some ⟨true⟩)
      (some ⟨some ⟨"Good", "90"⟩, none⟩) true).1 := by
  constructor
  · exact (buzzer_on_medium_high ⟨true⟩ ⟨some ⟨"HIGH RISK", "90"⟩, none⟩
      ⟨"HIGH RISK", "90"⟩ true rfl rfl).mpr (.inr (by decide))
  · intro hmem
    exact absurd ((buzzer_on_medium_high ⟨true⟩ ⟨some ⟨"Good", "90"⟩, none⟩
      ⟨"Good", "90"⟩ true rfl rfl).mp hmem) (by decide)

/-- C10: when the handle is absent or closed, or the result is absent or
has no `prediction` key, neither `control_hardware` nor `send_to_arduino`
writes anything, and the relay latch state is returned unchanged. -/
theorem error_path_noop (ard : Option Arduino) (result : Option PredResult)
    (b : Bool)
    (h : ard = none ∨ (∃ a, ard = some a ∧ a.is_open = false) ∨ result = none ∨
      (∃ r, result = some r ∧ r.prediction = none)) :
    control_hardware ard result b = ([], b) ∧ send_to_arduino ard result = [] := by
  rcases h with rfl | ⟨a, rfl, ha⟩ | rfl | ⟨r, rfl, hr⟩
  · exact ⟨rfl, rfl⟩
  · simp [control_hardware, send_to_arduino, ha]
  · rcases ard with - | a
    · exact ⟨rfl, rfl⟩
    · cases ha : a.is_open <;> simp [control_hardware, send_to_arduino, ha]
  · rcases ard with - | a
    · exact ⟨rfl, rfl⟩
    · cases ha : a.is_open <;> simp [control_hardware, send_to_arduino, ha, hr]

/-- C10 witness: a closed handle with a well-formed result is a no-op. -/
theorem error_path_noop_witness :
    control_hardware (some ⟨false⟩)
        (some ⟨some ⟨"HIGH RISK", "90"⟩, none⟩) false = ([], false) ∧
    send_to_arduino (some ⟨false⟩) (some ⟨some ⟨"HIGH RISK", "90"⟩, none⟩) = [] :=
  error_path_noop (some ⟨false⟩) (some ⟨some ⟨"HIGH RISK", "90"⟩, none⟩) false
    (.inr (.inl ⟨⟨false⟩, rfl, rfl⟩))

/-- Whether one call of `control_hardware` starting from the unlatched
state would engage the latch (an open handle, a result with a
prediction, and a `high` classification). -/
def latches (ard : Option Arduino) (r : Option PredResult) : Bool :=
  (control_hardware ard r false).2

/-- Helper: a call entered with the latch engaged writes no `RELAY:ON`
and leaves the latch engaged. -/
lemma control_hardware_latched (ard : Option Arduino) (r : Option PredResult) :
    (control_hardware ard r true).2 = true ∧
    ((control_hardware ard r true).1.count relayCmd = 0) := by
  rcases ard with - | a
  · exact ⟨rfl, rfl⟩
  cases ha : a.is_open
  · simp [control_hardware, ha]
  rcases r with - | r
  · simp [control_hardware, ha]
  rcases hp : r.prediction with - | p
  · simp [control_hardware, ha, hp]
  cases hr : risk_level p.quality <;>
    simp [control_hardware, ha, hp, hr, relayCmd, buzzerCmd]

/-- Helper: a call entered with the latch disengaged writes `RELAY:ON`
exactly when it engages the latch, and never twice. -/
lemma control_hardware_unlatched (ard : Option Arduino) (r : Option PredResult) :
    (control_hardware ard r false).1.count relayCmd =
      if latches ard r then 1 else 0 := by
  unfold latches
  rcases ard with - | a
  · rfl
  cases ha : a.is_open
  · simp [control_hardware, ha]
  rcases r with - | r
  · simp [control_hardware, ha]
  rcases hp : r.prediction with - | p
  · simp [control_hardware, ha, hp]
  cases hr : risk_level p.quality <;>
    simp [control_hardware, ha, hp, hr, relayCmd, buzzerCmd]

/-- C2: over any whole-lifetime sequence of classified results, starting
unlatched, `RELAY:ON` is written exactly once if some result classifies
high (on an open handle) and never otherwise — so at most once per
process lifetime; and once latched the state never leaves `LATCHED` and
no further `RELAY:ON` is ever written. -/
theorem relay_latched_once (ard : Option Arduino) (rs : List (Option PredResult)) :
    ((controlRun ard rs false).1.count relayCmd =
      if rs.any (fun r => latches ard r) then 1 else 0) ∧
    ((controlRun ard rs false).1.count relayCmd ≤ 1) ∧
    ((controlRun ard rs true).2 = true) ∧
    ((controlRun ard rs true).1.count relayCmd = 0) := by
  have hlat : ∀ rs' : List (Option PredResult),
      (controlRun ard rs' true).2 = true ∧
      (controlRun ard rs' true).1.count relayCmd = 0 := by
    intro rs'
    induction rs' with
    | nil => exact ⟨rfl, rfl⟩
    | cons r rest ih =>
      have hc := control_hardware_latched ard r
      simp only [controlRun]
      rw [hc.1]
      constructor
      · exact ih.1
      · simp [List.count_append, hc.2, ih.2]
  have hfalse : (controlRun ard rs false).1.count relayCmd =
      if rs.any (fun r => latches ard r) then 1 else 0 := by
    induction rs with
    | nil => rfl
    | cons r rest ih =>
      simp only [controlRun]
      cases hl : latches ard r
      · have h2 : (control_hardware ard r false).2 = false := hl
        rw [h2]
        have hcnt := control_hardware_unlatched ard r
        rw [hl] at hcnt
        simp [List.count_append, hcnt, ih, hl]
      · have h2 : (control_hardware ard r false).2 = true := hl
        rw [h2]
        have hcnt := control_hardware_unlatched ard r
        rw [hl] at hcnt
        simp [List.count_append, hcnt, (hlat rest).2, hl]
  refine ⟨hfalse, ?_, (hlat rs).1, (hlat rs).2⟩
  rw [hfalse]
  split <;> omega

/-- C6: a failed prediction attempt (timeout, transport error, non-200
status, undecodable payload, or payload without a prediction) writes no
actuator or display command, leaves the latch unchanged, and the worker
just drops that batch and continues with the remaining ones. -/
theorem prediction_failure_skipped (ard : Option Arduino) (b : Bool)
    (o : NetOutcome) (rest : List NetOutcome) (h : isFailure o = true) :
    predictionStep ard b o = ([], b) ∧
    predictionRun ard b (o :: rest) = predictionRun ard b rest := by
  have hstep : predictionStep ard b o = ([], b) := by
    cases o with
    | timeout => rfl
    | netError => rfl
    | response status body =>
      unfold isFailure at h
      by_cases hs : status = 200
      · rcases body with - | r
        · simp [predictionStep, hs]
        · rcases hp : r.prediction with - | p
          · simp [predictionStep, hs, hp]
          · rw [hs] at h
            simp [hp, Option.isNone] at h
      · simp [predictionStep, hs]
  refine ⟨hstep, ?_⟩
  simp only [predictionRun, hstep]
  simp

/-- C6 witness: a timeout followed by a successful batch behaves exactly
like the successful batch alone. -/
theorem prediction_failure_skipped_witness :
    predictionStep (some ⟨true⟩) false .timeout = ([], false) ∧
    predictionRun (some ⟨true⟩) false
        [.timeout, .response 200 (some ⟨some ⟨"HIGH RISK", "90"⟩, none⟩)] =
      predictionRun (some ⟨true⟩) false
        [.response 200 (some ⟨some ⟨"HIGH RISK", "90"⟩, none⟩)] :=
  prediction_failure_skipped (some ⟨true⟩) false .timeout
    [.response 200 (some ⟨some ⟨"HIGH RISK", "90"⟩, none⟩)] rfl

/-- C8: a successful result on an open handle produces exactly two
display writes: the `RISK:` line holding the quality label truncated to
at most 12 characters and the confidence percent, then an `ISSUE:` line
holding the top disease name truncated to at most 16 characters when the
disease list is non-empty, and the literal `Safe to use` otherwise. -/
theorem send_to_arduino_format (a : Arduino) (r : PredResult) (p : Prediction)
    (hopen : a.is_open = true) (hp : r.prediction = some p) :
    ∃ issue : String,
      send_to_arduino (some a) (some r) =
        ["RISK:" ++ (pyTruncate 12 p.quality ++ " " ++ p.confidence ++ "%") ++ "\n",
         "ISSUE:" ++ issue ++ "\n"] ∧
      (pyTruncate 12 p.quality).length ≤ 12 ∧
      ((∃ d ds, r.disease_risks = some (d :: ds) ∧ issue = pyTruncate 16 d.name ∧
          issue.length ≤ 16) ∨
        ((r.disease_risks = none ∨ r.disease_risks = some []) ∧
          issue = "Safe to use")) := by
  have hlen : ∀ n (s : String), (pyTruncate n s).length ≤ n := by
    intro n s
    have h1 : (pyTruncate n s).length = (s.toList.take n).length := rfl
    rw [h1, List.length_take]
    omega
  rcases hd : r.disease_risks with - | ⟨- | ⟨d, ds⟩⟩
  · refine ⟨"Safe to use", ?_, hlen 12 p.quality, .inr ⟨.inl rfl, rfl⟩⟩
    simp [send_to_arduino, hopen, hp, hd]
  · refine ⟨"Safe to use", ?_, hlen 12 p.quality, .inr ⟨.inr rfl, rfl⟩⟩
    simp [send_to_arduino, hopen, hp, hd]
  · refine ⟨pyTruncate 16 d.name, ?_, hlen 12 p.quality,
      .inl ⟨d, ds, rfl, rfl, hlen 16 d.name⟩⟩
    simp [send_to_arduino, hopen, hp, hd]

/-- C8 witness at a concrete result with a long label and a long disease
name. -/
theorem send_to_arduino_format_witness :
    ∃ issue : String,
      send_to_arduino (some ⟨true⟩)
          (some ⟨some ⟨"Contaminated - HIGH RISK", "88"⟩,
            some [⟨"Gastrointestinal infection", "70", "high", "likely"⟩]⟩) =
        ["RISK:" ++ (pyTruncate 12 "Contaminated - HIGH RISK" ++ " " ++ "88" ++ "%") ++ "\n",
         "ISSUE:" ++ issue ++ "\n"] ∧
      (pyTruncate 12 "Contaminated - HIGH RISK").length ≤ 12 ∧
      ((∃ d ds, (some [⟨"Gastrointestinal infection", "70", "high", "likely"⟩] :
            Option (List Disease)) = some (d :: ds) ∧
          issue = pyTruncate 16 d.name ∧ issue.length ≤ 16) ∨
        (((some [⟨"Gastrointestinal infection", "70", "high", "likely"⟩] :
            Option (List Disease)) = none ∨
          (some [⟨"Gastrointestinal infection", "70", "high", "likely"⟩] :
            Option (List Disease)) = some []) ∧
          issue = "Safe to use")) :=
  send_to_arduino_format ⟨true⟩
    ⟨some ⟨"Contaminated - HIGH RISK", "88"⟩,
      some [⟨"Gastrointestinal infection", "70", "high", "likely"⟩]⟩
    ⟨"Contaminated - HIGH RISK", "88"⟩ rfl rfl

/-! ## Theorems: reader batching -/

/-- The accepted-reading branch of `readerStep`, as a function of the
stamped reading alone (proof helper). -/
def acceptStep (st : ReaderState) (swt : TimedReading) : ReaderState :=
  let reading_count := st.reading_count + 1
  let instant_queue := st.instant_queue ++ [swt]
  let sensor_buffer := st.sensor_buffer ++ [swt]
  if READINGS_BUFFER ≤ sensor_buffer.length then
    { reading_count
      sensor_buffer := []
      instant_queue
      prediction_queue := st.prediction_queue ++
        [{ data := (sensor_buffer.getLast?).getD swt
           count := reading_count
           time := swt.time }] }
  else
    { reading_count, sensor_buffer, instant_queue
      prediction_queue := st.prediction_queue }

/-- A rejected or empty line leaves the reader state unchanged. -/
lemma readerStep_rejected (st : ReaderState) (line : String) (t : ℕ)
    (h : line = "" ∨ parse_sensor_line line = none) :
    readerStep st line t = st := by
  rcases h with rfl | h
  · rfl
  · unfold readerStep
    by_cases he : line = ""
    · simp [he]
    · simp [he, h]

/-- An accepted line advances the reader state by `acceptStep`. -/
lemma readerStep_accepted (st : ReaderState) (line : String) (t : ℕ) (r : Reading)
    (hne : line ≠ "") (h : parse_sensor_line line = some r) :
    readerStep st line t = acceptStep st ⟨r, t⟩ := by
  unfold readerStep acceptStep
  simp [hne, h]

/-- The reader run is the fold of `acceptStep` over the accepted
readings. -/
lemma readerRun_eq_acceptFold (ls : List (String × ℕ)) :
    readerRun ls = (acceptedReadings ls).foldl acceptStep readerInit := by
  suffices h : ∀ (ls : List (String × ℕ)) (st : ReaderState),
      ls.foldl (fun st lt => readerStep st lt.1 lt.2) st =
        (acceptedReadings ls).foldl acceptStep st by
    exact h ls readerInit
  intro ls
  induction ls with
  | nil => intro st; rfl
  | cons lt rest ih =>
    intro st
    obtain ⟨line, t⟩ := lt
    by_cases he : line = ""
    · rw [List.foldl_cons]
      rw [readerStep_rejected st line t (.inl he)]
      rw [ih st]
      have : acceptedReadings ((line, t) :: rest) = acceptedReadings rest := by
        simp [acceptedReadings, he]
      rw [this]
    · cases hp : parse_sensor_line line with
      | none =>
        rw [List.foldl_cons]
        rw [readerStep_rejected st line t (.inr hp)]
        rw [ih st]
        have : acceptedReadings ((line, t) :: rest) = acceptedReadings rest := by
          simp [acceptedReadings, he, hp]
        rw [this]
      | some r =>
        rw [List.foldl_cons]
        rw [readerStep_accepted st line t r he hp]
        have : acceptedReadings ((line, t) :: rest) =
            ⟨r, t⟩ :: acceptedReadings rest := by
          simp [acceptedReadings, he, hp]
        rw [this, List.foldl_cons]
        exact ih _

/-- Reading `getD` on an append, left part (proof helper). -/
lemma getD_append_left {α : Type} [Inhabited α] (l1 l2 : List α) (i : ℕ)
    (h : i < l1.length) :
    (l1 ++ l2).getD i default = l1.getD i default := by
  simp [List.getD_eq_getElem?_getD, List.getElem?_append_left h]

/-- Reading `getD` at the seam of an append of a singleton (proof helper). -/
lemma getD_concat_self {α : Type} [Inhabited α] (l : List α) (x : α) :
    (l ++ [x]).getD l.length default = x := by
  simp [List.getD_eq_getElem?_getD, List.getElem?_concat_length]

/-- Appending a reading that does not complete a group of 5 leaves the
spec batch queue unchanged. -/
lemma batchQueueSpec_concat_incomplete (A : List TimedReading) (x : TimedReading)
    (h : (A.length + 1) % 5 ≠ 0) :
    batchQueueSpec (A ++ [x]) = batchQueueSpec A := by
  unfold batchQueueSpec
  have hlen : (A ++ [x]).length = A.length + 1 := by simp
  have hdiv : (A.length + 1) / 5 = A.length / 5 := by omega
  rw [hlen]
  simp only [READINGS_BUFFER]
  rw [hdiv]
  refine List.map_congr_left ?_
  intro i hi
  rw [List.mem_range] at hi
  have hlt : 5 * i + (5 - 1) < A.length := by omega
  rw [getD_append_left A [x] _ hlt]

/-- Appending a reading that completes a group of 5 appends exactly one
`BatchItem` holding that reading to the spec batch queue. -/
lemma batchQueueSpec_concat_full (A : List TimedReading) (x : TimedReading)
    (h : (A.length + 1) % 5 = 0) :
    batchQueueSpec (A ++ [x]) =
      batchQueueSpec A ++ [⟨x, A.length + 1, x.time⟩] := by
  unfold batchQueueSpec
  have hlen : (A ++ [x]).length = A.length + 1 := by simp
  have hdiv : (A.length + 1) / 5 = A.length / 5 + 1 := by omega
  rw [hlen]
  simp only [READINGS_BUFFER]
  rw [hdiv, List.range_succ, List.map_append]
  congr 1
  · refine List.map_congr_left ?_
    intro i hi
    rw [List.mem_range] at hi
    have hlt : 5 * i + (5 - 1) < A.length := by omega
    rw [getD_append_left A [x] _ hlt]
  · have hidx : 5 * (A.length / 5) + (5 - 1) = A.length := by omega
    simp only [List.map_cons, List.map_nil]
    rw [hidx, getD_concat_self]
    have hcount : 5 * (A.length / 5 + 1) = A.length + 1 := by omega
    rw [hcount]

/-- The reader-state invariant of the accepted fold: the counter is the
number of accepted readings, the pending buffer is the tail after the
last completed group of 5, the instant queue holds every accepted
reading in order, and the batch queue is exactly its specification. -/
lemma acceptFold_spec (A : List TimedReading) :
    A.foldl acceptStep readerInit =
      { reading_count := A.length
        sensor_buffer := A.drop (READINGS_BUFFER * (A.length / READINGS_BUFFER))
        instant_queue := A
        prediction_queue := batchQueueSpec A } := by
  induction A using List.reverseRecOn with
  | nil => rfl
  | append_singleton xs x ih =>
    rw [List.foldl_append, List.foldl_cons, List.foldl_nil, ih]
    simp only [acceptStep, READINGS_BUFFER]
    have hdroplen : (xs.drop (5 * (xs.length / 5))).length =
        xs.length - 5 * (xs.length / 5) := by
      simp [List.length_drop]
    have hlenx : (xs.drop (5 * (xs.length / 5)) ++ [x]).length =
        xs.length - 5 * (xs.length / 5) + 1 := by
      rw [List.length_append, hdroplen]
      simp
    have hlenapp : (xs ++ [x]).length = xs.length + 1 := by simp
    by_cases hmod : (xs.length + 1) % 5 = 0
    · rw [if_pos (by rw [hlenx]; omega)]
      have hfull := batchQueueSpec_concat_full xs x hmod
      have hd : 5 * ((xs ++ [x]).length / 5) = (xs ++ [x]).length := by
        rw [hlenapp]; omega
      rw [hfull, hd, List.drop_length]
      congr 1
      · rw [hlenapp]
      · congr 2
        · rw [List.getLast?_concat]
          rfl
    · rw [if_neg (by rw [hlenx]; omega)]
      have hpart := batchQueueSpec_concat_incomplete xs x hmod
      have hdiv : (xs ++ [x]).length / 5 = xs.length / 5 := by
        rw [hlenapp]; omega
      rw [hpart]
      congr 1
      · rw [hlenapp]
      · simp only [READINGS_BUFFER, hdiv]
        rw [List.drop_append_of_le_length (by omega)]

/-- C1: over any input line sequence, the batch queue receives exactly
one `BatchItem` per completed group of 5 accepted readings; each item
carries the group's 5th (last) reading — not an aggregate — tagged with
the running `reading_count` (5, 10, …) and that reading's timestamp; and
the pending buffer holds only the accepted readings after the last
completed group (so it is cleared whenever a batch is enqueued). -/
theorem reader_batches_every_fifth (ls : List (String × ℕ)) :
    (readerRun ls).prediction_queue = batchQueueSpec (acceptedReadings ls) ∧
    (readerRun ls).sensor_buffer = (acceptedReadings ls).drop
      (READINGS_BUFFER * ((acceptedReadings ls).length / READINGS_BUFFER)) ∧
    (readerRun ls).reading_count = (acceptedReadings ls).length := by
  rw [readerRun_eq_acceptFold, acceptFold_spec]
  exact ⟨rfl, rfl, rfl⟩

end WaterSafety
